import Mathlib

/-!
Verification development for the thanos-receive-controller reconciler
(`main.go`).  The Go program reads hashring definition files, probes each
member endpoint for readiness, replaces every definition's endpoint list by
the lexicographically sorted list of ready endpoints, and writes a derived
`*_generated.json` file only when its sha256 digest would change.

The embedding below models each Go function by a Lean function over explicit
inputs: the network is a map from URL to an optional response, the filesystem
state of a derived file is an `Option` of its (structured) content, and
failure modes of external calls (`user.Lookup`, `ioutil.WriteFile`,
`os.Chown`, reads) are explicit booleans or inductive read results.
-/

namespace ThanosReceiveController

/-! ## Go string primitives used by the program -/

/-- Go `strings.Split(s, sep)` for a single-character separator `c`:
the list of maximal `c`-free segments of `s` (always nonempty). -/
def splitOnChar (c : Char) : List Char → List (List Char)
  | [] => [[]]
  | x :: xs =>
    if x = c then [] :: splitOnChar c xs
    else
      match splitOnChar c xs with
      | y :: ys => (x :: y) :: ys
      | [] => [[x]]

/-- Does `s` begin with `pat`? (Go `strings.HasPrefix`.) -/
def beginsWith : List Char → List Char → Bool
  | [], _ => true
  | _ :: _, [] => false
  | a :: as, b :: bs => a == b && beginsWith as bs

/-- The segment of `s` strictly before the first occurrence of the (nonempty)
separator `sep`; all of `s` when `sep` does not occur.  This is element `[0]`
of Go `strings.Split(s, sep)`. -/
def prefixUpTo (sep : List Char) : List Char → List Char
  | [] => []
  | x :: xs => if beginsWith sep (x :: xs) then [] else x :: prefixUpTo sep xs

/-- Go `strings.HasSuffix(s, suffix)`: the last `suffix.length` characters of
`s` equal `suffix`. -/
def hasSuffixGo (s suffix : List Char) : Bool :=
  suffix.length ≤ s.length && (s.drop (s.length - suffix.length) == suffix)

/-- Value of a nonempty all-digit character list, `none` otherwise. -/
def digitsVal : List Char → Option Nat
  | [] => none
  | [c] => if c.isDigit then some (c.toNat - '0'.toNat) else none
  | c :: cs =>
    match digitsVal cs, c.isDigit with
    | some n, true => some ((c.toNat - '0'.toNat) * 10 ^ cs.length + n)
    | _, _ => none

/-- Does `s` satisfy Go `strconv.Atoi` syntax: an optional sign followed by a
nonempty run of decimal digits? -/
def atoiAccepts (s : List Char) : Bool :=
  match s with
  | '-' :: rest => (digitsVal rest).isSome
  | '+' :: rest => (digitsVal rest).isSome
  | _ => (digitsVal s).isSome

/-- Go `strconv.Atoi` as used at its call sites here, where the error return
is discarded: a syntactically invalid string yields `0`.  (The `int64` range
clamp of `Atoi` is not modelled; the program only feeds port strings to it.) -/
def atoiGo (s : List Char) : Int :=
  match s with
  | '-' :: rest =>
    match digitsVal rest with
    | some n => -(n : Int)
    | none => 0
  | '+' :: rest =>
    match digitsVal rest with
    | some n => (n : Int)
    | none => 0
  | _ =>
    match digitsVal s with
    | some n => (n : Int)
    | none => 0

/-! ## Data model -/

/-- `HashringConfig` from `main.go`: the configuration for one hashring.  Go
zero values stand for absent optional fields (`""` for `Hashring`, `[]` for
`Tenants`). -/
structure HashringConfig where
  hashring : String
  tenants : List String
  endpoints : List String
deriving DecidableEq, Repr

/-! ## Readiness prober (`healthyEndpoint`) -/

/-- Lexicographic comparison of strings by character sequence, matching Go's
byte-wise string comparison used by `sort.Strings` (UTF-8 byte order agrees
with code-point order). -/
def goLe (a b : String) : Prop := a.data ≤ b.data

instance : DecidableRel goLe :=
  fun a b => inferInstanceAs (Decidable (a.data ≤ b.data))

instance : IsTotal String goLe := ⟨fun a b => le_total a.data b.data⟩

instance : IsTrans String goLe := ⟨fun _ _ _ hab hbc => le_trans hab hbc⟩

instance : IsAntisymm String goLe :=
  ⟨fun _ _ hab hba => String.ext (le_antisymm hab hba)⟩

/-- The classification at the heart of `healthyEndpoint`: a member is ready
iff the HTTP response arrived (no transport error) with status exactly `200`
and body exactly `"OK"`.  `none` models a failed request. -/
def classifyResponse (resp : Option (Nat × String)) : Bool :=
  match resp with
  | some (status, body) => status == 200 && body == "OK"
  | none => false

/-- The URL `healthyEndpoint` probes, already including the port offset. -/
def readyURL (scheme host : String) (port : Int) : String :=
  scheme ++ "://" ++ host ++ ":" ++ toString port ++ "/-/ready"

/-- The probe URL built from a member address: `healthyEndpoint` splits the
address on `':'`, takes component `[0]` as host and `Atoi` of component `[1]`
as port (conversion error discarded), and adds the port offset. -/
def probeTarget (scheme : String) (portOffset : Int) (endpoint : String) : String :=
  match splitOnChar ':' endpoint.data with
  | host :: portStr :: _ => readyURL scheme ⟨host⟩ (atoiGo portStr + portOffset)
  | _ => ""

/-- `healthyEndpoint` from `main.go`.  `respond` is the network: for a URL it
yields `some (status, body)` or `none` for a transport/request error.  The
result is `some b` where `b` says whether the endpoint was sent on the result
channel (classified ready); `none` models the index-out-of-range panic on
`endpointSplit[1]` when the address contains no `':'`. -/
def healthyEndpoint (respond : String → Option (Nat × String)) (scheme : String)
    (portOffset : Int) (endpoint : String) : Option Bool :=
  match splitOnChar ':' endpoint.data with
  | _ :: _ :: _ => some (classifyResponse (respond (probeTarget scheme portOffset endpoint)))
  | _ => none

/-! ## Hashring reconciler (the per-definition loop of `checkHashringFile`) -/

/-- `sort.Strings`: rearrange into nondecreasing `goLe` order.  Insertion sort
is used as the model; any sorting algorithm yields the same list because a
sorted permutation of a list is unique for a total antisymmetric order. -/
def sortStrings (l : List String) : List String :=
  List.insertionSort goLe l

/-- One iteration of the `for pos, hashring := range hashrings` loop: the
endpoints surviving their probe (`ready`), collected from the channel and
sorted, replace the definition's endpoint list; other fields are untouched. -/
def reconcileDefinition (ready : String → Bool) (h : HashringConfig) : HashringConfig :=
  { h with endpoints := sortStrings (h.endpoints.filter ready) }

/-- The whole loop over a decoded hashring file: every definition is
reconciled in place, in file order. -/
def reconcileAll (ready : String → Bool) (hs : List HashringConfig) : List HashringConfig :=
  hs.map (reconcileDefinition ready)

/-! ## Configuration materializer (`saveHashringFile` and the tail of
`checkHashringFile`) -/

/-- Outcome of `saveHashringFile`. -/
inductive SaveOutcome
  | lookupFailed
  | writeFailed
  | chownFailed
  | saved
deriving DecidableEq, Repr

/-- Success/failure of the external calls `saveHashringFile` makes:
`user.Lookup(owner)`, `ioutil.WriteFile` (false models the target path being
unwritable, i.e. the open fails and the file is untouched), and `os.Chown`. -/
structure SaveEnv where
  ownerOk : Bool
  writable : Bool
  chownOk : Bool
deriving DecidableEq, Repr

/-- `saveHashringFile` from `main.go`, acting on the derived file's state
(`prior`, `none` when absent).  The owner lookup precedes the write, the write
precedes the chown; failure at either of the first two steps returns with the
file untouched, while a chown failure happens after the content is already
written. -/
def saveHashringFile (env : SaveEnv) (prior : Option (List HashringConfig))
    (content : List HashringConfig) : Option (List HashringConfig) × SaveOutcome :=
  if !env.ownerOk then (prior, .lookupFailed)
  else if !env.writable then (prior, .writeFailed)
  else if !env.chownOk then (some content, .chownFailed)
  else (some content, .saved)

/-- Outcome of reading and decoding the trusted source file at the head of
`checkHashringFile`. -/
inductive SourceRead
  | unreadable
  | malformed
  | ok (hashrings : List HashringConfig)

/-- How one `checkHashringFile` call ended. -/
inductive CheckResult
  | readError
  | decodeError
  | generatedUnreadable
  | skippedNoChange
  | wrote (o : SaveOutcome)
deriving DecidableEq, Repr

/-- Environment of one `checkHashringFile` call.  `digest` stands for
`sha256.Sum256` applied to the serialized configuration; `json.Marshal` of a
given value is deterministic, so the digest is modelled as a function of the
structured content.  `generatedReadable` is whether reading an existing
derived file succeeds. -/
structure CheckEnv (D : Type) where
  digest : List HashringConfig → D
  generatedReadable : Bool
  save : SaveEnv

/-- `checkHashringFile` from `main.go`, from the point where the source file
has been read (`src`) and each endpoint's probe classification is `ready`:
reconcile every definition, then write the derived file unless it already
exists, is readable, and its digest equals the digest of the new content.
Returns the new state of the derived file and how the call ended. -/
def checkHashringFile {D : Type} [DecidableEq D] (env : CheckEnv D)
    (src : SourceRead) (ready : String → Bool)
    (generated : Option (List HashringConfig)) :
    Option (List HashringConfig) × CheckResult :=
  match src with
  | .unreadable => (generated, .readError)
  | .malformed => (generated, .decodeError)
  | .ok hashrings =>
    let content := reconcileAll ready hashrings
    match generated with
    | some existing =>
      if !env.generatedReadable then (generated, .generatedUnreadable)
      else if env.digest existing = env.digest content then
        (generated, .skippedNoChange)
      else
        let r := saveHashringFile env.save generated content
        (r.1, .wrote r.2)
    | none =>
      let r := saveHashringFile env.save generated content
      (r.1, .wrote r.2)

/-- All inputs of one file's pipeline within a `run`. -/
structure FileInput (D : Type) where
  env : CheckEnv D
  src : SourceRead
  ready : String → Bool
  generated : Option (List HashringConfig)

/-- `run` from `main.go`: every file is processed by its own
`checkHashringFile` goroutine, with no shared state between files; the run's
result is the per-file results. -/
def runFiles {D : Type} [DecidableEq D] (files : List (FileInput D)) :
    List (Option (List HashringConfig) × CheckResult) :=
  files.map (fun f => checkHashringFile f.env f.src f.ready f.generated)

/-! ## Discovery (`listHashringFiles`) and derived-file naming -/

/-- One filesystem entry visited by `filepath.Walk`. -/
structure WalkEntry where
  path : String
  isDir : Bool
deriving DecidableEq, Repr

/-- `listHashringFiles` from `main.go`, over the entries the walk visits: keep
a path iff it is not a directory, does not end in `_generated.json`, and ends
in `.json`. -/
def listHashringFiles (entries : List WalkEntry) : List String :=
  (entries.filter (fun e =>
    !e.isDir && !hasSuffixGo e.path.data "_generated.json".data
      && hasSuffixGo e.path.data ".json".data)).map WalkEntry.path

/-- The derived file's name in `checkHashringFile`:
`strings.Split(file, ".json")[0] + "_generated.json"`, i.e. `_generated.json`
appended to the part of the source path before its first `.json`. -/
def generatedFileName (file : String) : String :=
  ⟨prefixUpTo ".json".data file.data ++ "_generated.json".data⟩

/-! ## Startup validation (`main`) -/

/-- The parsed command-line flags `main` validates. -/
structure Flags where
  file : String
  directory : String
  interval : Int
  endpointTimeout : Int
  schedule : Bool
  version : Bool
deriving DecidableEq, Repr

/-- The first startup check of `main`: the single-file and directory modes are
both absent or both present. -/
def modesInvalid (f : Flags) : Bool :=
  (f.directory == "" && f.file == "") || (f.directory != "" && f.file != "")

/-- How `main` proceeds after flag parsing; probes are issued only on the
`runOnce` and `scheduled` outcomes. -/
inductive MainOutcome
  | showVersion
  | fatalConfig (msg : String)
  | runOnce
  | scheduled
deriving DecidableEq, Repr

/-- The startup control flow of `main`, in source order: the version flag
prints and exits; then the mode check and the interval/timeout check each
abort fatally; otherwise the process runs once or starts the scheduler. -/
def mainModel (f : Flags) : MainOutcome :=
  if f.version then .showVersion
  else if modesInvalid f then
    .fatalConfig "Either directory or file argument should be set. (mutually exclusive)"
  else if f.interval ≤ f.endpointTimeout then
    .fatalConfig "interval must be greater than timeout"
  else if !f.schedule then .runOnce
  else .scheduled

/-! ## Scheduler shutdown (the `schedule` branch of `main`)

The schedule branch runs three concurrent activities: a runner goroutine that
on each tick executes a full `run` synchronously, a signal-forwarding
goroutine that sends on `signalDone` when the OS delivers SIGINT/SIGTERM, and
the main goroutine, which blocks on `signalDone`, logs, and returns — at which
point the Go runtime terminates the whole process, killing every other
goroutine wherever it is.  (`scheduleDone` is allocated but nothing ever sends
on it.)  The interleaving semantics below has one step per event. -/

/-- Global state of the schedule branch. -/
structure SchedState where
  runnerBusy : Bool
  runsStarted : Nat
  runsCompleted : Nat
  sigForwarded : Bool
  exited : Bool
deriving DecidableEq, Repr

/-- Interleaving steps of the schedule branch.  Every step requires
`exited = false`: once main returns, the process is gone and nothing moves
again — in particular a run in flight at that moment never finishes.  `exit`
requires only that the signal was forwarded: main does not wait for the
runner. -/
inductive SchedStep : SchedState → SchedState → Prop
  | tick (s : SchedState) (h1 : s.exited = false) (h2 : s.runnerBusy = false) :
      SchedStep s { s with runnerBusy := true, runsStarted := s.runsStarted + 1 }
  | finish (s : SchedState) (h1 : s.exited = false) (h2 : s.runnerBusy = true) :
      SchedStep s { s with runnerBusy := false, runsCompleted := s.runsCompleted + 1 }
  | signal (s : SchedState) (h1 : s.exited = false) (h2 : s.sigForwarded = false) :
      SchedStep s { s with sigForwarded := true }
  | exit (s : SchedState) (h1 : s.exited = false) (h2 : s.sigForwarded = true) :
      SchedStep s { s with exited := true }

/-- Initial state of the schedule branch, right after the scheduler starts. -/
def schedInit : SchedState :=
  { runnerBusy := false, runsStarted := 0, runsCompleted := 0,
    sigForwarded := false, exited := false }

/-- Executions of the schedule branch: the reflexive-transitive closure of the
step relation. -/
def SchedReaches (a b : SchedState) : Prop :=
  Relation.ReflTransGen SchedStep a b

/-! ## Supporting lemmas -/

theorem splitOnChar_ne_nil (c : Char) (s : List Char) : splitOnChar c s ≠ [] := by
  induction s with
  | nil => simp [splitOnChar]
  | cons x xs ih =>
    simp only [splitOnChar]
    split
    · simp
    · split
      · simp
      · simp

theorem splitOnChar_of_not_mem {c : Char} {s : List Char} (h : c ∉ s) :
    splitOnChar c s = [s] := by
  induction s with
  | nil => rfl
  | cons x xs ih =>
    have hx : x ≠ c := fun hh => h (hh ▸ List.mem_cons_self x xs)
    have hxs : c ∉ xs := fun hh => h (List.mem_cons_of_mem x hh)
    simp only [splitOnChar, if_neg hx, ih hxs]

theorem splitOnChar_two_of_mem {c : Char} {s : List Char} (h : c ∈ s) :
    ∃ x y ys, splitOnChar c s = x :: y :: ys := by
  induction s with
  | nil => cases h
  | cons a as ih =>
    by_cases ha : a = c
    · subst ha
      rcases hne : splitOnChar a as with _ | ⟨y, ys⟩
      · exact absurd hne (splitOnChar_ne_nil a as)
      · exact ⟨[], y, ys, by simp [splitOnChar, hne]⟩
    · have hmem : c ∈ as := by
        rcases List.mem_cons.mp h with h1 | h1
        · exact absurd h1.symm ha
        · exact h1
      obtain ⟨x, y, ys, hxy⟩ := ih hmem
      exact ⟨a :: x, y, ys, by simp [splitOnChar, if_neg ha, hxy]⟩

theorem splitOnChar_append {c : Char} {a : List Char} (b : List Char) (h : c ∉ a) :
    splitOnChar c (a ++ c :: b) = a :: splitOnChar c b := by
  induction a with
  | nil => simp [splitOnChar]
  | cons x xs ih =>
    have hx : x ≠ c := fun hh => h (hh ▸ List.mem_cons_self x xs)
    have hxs : c ∉ xs := fun hh => h (List.mem_cons_of_mem x hh)
    simp only [List.cons_append, splitOnChar, if_neg hx, List.append_eq, ih hxs]

theorem hasSuffixGo_append (a b : List Char) : hasSuffixGo (a ++ b) b = true := by
  simp [hasSuffixGo, List.length_append, Nat.add_sub_cancel, List.drop_left]

theorem hasSuffixGo_iff {s t : List Char} : hasSuffixGo s t = true ↔ t <:+ s := by
  constructor
  · intro h
    simp only [hasSuffixGo, Bool.and_eq_true, decide_eq_true_eq, beq_iff_eq] at h
    exact ⟨List.take (s.length - t.length) s, by
      conv_rhs => rw [← List.take_append_drop (s.length - t.length) s]
      rw [h.2]⟩
  · rintro ⟨u, rfl⟩
    exact hasSuffixGo_append u t

theorem sortStrings_eq_of_perm {l l' : List String} (h : l.Perm l') :
    sortStrings l = sortStrings l' :=
  List.eq_of_perm_of_sorted
    ((List.perm_insertionSort goLe l).trans (h.trans (List.perm_insertionSort goLe l').symm))
    (List.sorted_insertionSort goLe l)
    (List.sorted_insertionSort goLe l')

theorem atoiGo_eq_zero {s : List Char} (h : atoiAccepts s = false) : atoiGo s = 0 := by
  unfold atoiAccepts at h
  unfold atoiGo
  split at h
  · rename_i rest
    cases hd : digitsVal rest with
    | none => simp [hd]
    | some n => rw [hd] at h; simp at h
  · rename_i rest
    cases hd : digitsVal rest with
    | none => simp [hd]
    | some n => rw [hd] at h; simp at h
  · cases hd : digitsVal s with
    | none => simp [hd]
    | some n => rw [hd] at h; simp at h

theorem classifyResponse_eq_true_iff (resp : Option (Nat × String)) :
    classifyResponse resp = true ↔ resp = some (200, "OK") := by
  cases resp with
  | none => simp [classifyResponse]
  | some p =>
    obtain ⟨st, body⟩ := p
    simp [classifyResponse, Prod.ext_iff]

/-! ## Claims -/

/-- C1: for every hashring definition processed in a reconciliation pass, the
resulting member list equals the lexicographically sorted list of the
addresses whose readiness probes returned ready; collecting the ready results
from the channel in any completion order gives the same sorted output, and
permuting the input order of the member addresses leaves the output
unchanged. -/
theorem C1_reconciled_members_sorted_ready_order_independent
    (ready : String → Bool) (h : HashringConfig) (collected : List String)
    (hcol : collected.Perm (h.endpoints.filter ready))
    (shuffled : List String) (hin : shuffled.Perm h.endpoints) :
    (reconcileDefinition ready h).endpoints = sortStrings (h.endpoints.filter ready)
    ∧ sortStrings collected = (reconcileDefinition ready h).endpoints
    ∧ (reconcileDefinition ready { h with endpoints := shuffled }).endpoints
        = (reconcileDefinition ready h).endpoints := by
  refine ⟨rfl, sortStrings_eq_of_perm hcol, ?_⟩
  exact sortStrings_eq_of_perm (hin.filter ready)

/-- Witness for C1: three members, `b:10901` not ready, probes completing in
the order `c` then `a`, and an input file listing the members in a different
order, all give the sorted ready list. -/
theorem C1_witness :
    ((["c:10901", "a:10901"] : List String).Perm
        ((["b:10901", "a:10901", "c:10901"] : List String).filter (fun s => s != "b:10901"))
      ∧ (["c:10901", "b:10901", "a:10901"] : List String).Perm
          ["b:10901", "a:10901", "c:10901"])
    ∧ ((reconcileDefinition (fun s => s != "b:10901")
          ⟨"", [], ["b:10901", "a:10901", "c:10901"]⟩).endpoints
        = sortStrings ((["b:10901", "a:10901", "c:10901"] : List String).filter
            (fun s => s != "b:10901"))
      ∧ sortStrings ["c:10901", "a:10901"]
          = (reconcileDefinition (fun s => s != "b:10901")
              ⟨"", [], ["b:10901", "a:10901", "c:10901"]⟩).endpoints
      ∧ (reconcileDefinition (fun s => s != "b:10901")
          ⟨"", [], ["c:10901", "b:10901", "a:10901"]⟩).endpoints
        = (reconcileDefinition (fun s => s != "b:10901")
            ⟨"", [], ["b:10901", "a:10901", "c:10901"]⟩).endpoints) :=
  ⟨⟨by decide, by decide⟩,
    C1_reconciled_members_sorted_ready_order_independent (fun s => s != "b:10901")
      ⟨"", [], ["b:10901", "a:10901", "c:10901"]⟩
      ["c:10901", "a:10901"] (by decide) ["c:10901", "b:10901", "a:10901"] (by decide)⟩

/-- C2: the materializer performs no write when the digest of the newly
serialized configuration equals the digest of the already-existing derived
file; starting with no derived file, a first run writes it and a second run
with unchanged readiness outcomes performs no write, leaving the file state
(hence its bytes and modification time) unchanged. -/
theorem C2_materializer_skips_equal_digest_and_idempotent {D : Type}
    [DecidableEq D] (env : CheckEnv D) (hs : List HashringConfig)
    (ready : String → Bool) (hread : env.generatedReadable = true)
    (hok : env.save.ownerOk = true) (hw : env.save.writable = true)
    (hc : env.save.chownOk = true) :
    (∀ existing, env.digest existing = env.digest (reconcileAll ready hs) →
       checkHashringFile env (.ok hs) ready (some existing)
         = (some existing, .skippedNoChange))
    ∧ checkHashringFile env (.ok hs) ready none
        = (some (reconcileAll ready hs), .wrote .saved)
    ∧ checkHashringFile env (.ok hs) ready (some (reconcileAll ready hs))
        = (some (reconcileAll ready hs), .skippedNoChange) := by
  refine ⟨fun existing hdig => ?_, ?_, ?_⟩
  · simp [checkHashringFile, hread, hdig]
  · simp [checkHashringFile, saveHashringFile, hok, hw, hc]
  · simp [checkHashringFile, hread]

/-- Witness for C2: one definition, all probes ready, digest = list length;
the first run writes, the second run is skipped with the file unchanged. -/
theorem C2_witness :
    ((⟨fun l => l.length, true, ⟨true, true, true⟩⟩ : CheckEnv Nat).generatedReadable = true
      ∧ (⟨fun l => l.length, true, ⟨true, true, true⟩⟩ : CheckEnv Nat).save.ownerOk = true
      ∧ (⟨fun l => l.length, true, ⟨true, true, true⟩⟩ : CheckEnv Nat).save.writable = true
      ∧ (⟨fun l => l.length, true, ⟨true, true, true⟩⟩ : CheckEnv Nat).save.chownOk = true)
    ∧ checkHashringFile (⟨fun l => l.length, true, ⟨true, true, true⟩⟩ : CheckEnv Nat)
        (.ok [⟨"r", [], ["a:1"]⟩]) (fun _ => true) none
        = (some (reconcileAll (fun _ => true) [⟨"r", [], ["a:1"]⟩]), .wrote .saved)
    ∧ checkHashringFile (⟨fun l => l.length, true, ⟨true, true, true⟩⟩ : CheckEnv Nat)
        (.ok [⟨"r", [], ["a:1"]⟩]) (fun _ => true)
        (some (reconcileAll (fun _ => true) [⟨"r", [], ["a:1"]⟩]))
        = (some (reconcileAll (fun _ => true) [⟨"r", [], ["a:1"]⟩]), .skippedNoChange) :=
  ⟨⟨rfl, rfl, rfl, rfl⟩,
    (C2_materializer_skips_equal_digest_and_idempotent
      (⟨fun l => l.length, true, ⟨true, true, true⟩⟩ : CheckEnv Nat)
      [⟨"r", [], ["a:1"]⟩] (fun _ => true) rfl rfl rfl rfl).2.1,
    (C2_materializer_skips_equal_digest_and_idempotent
      (⟨fun l => l.length, true, ⟨true, true, true⟩⟩ : CheckEnv Nat)
      [⟨"r", [], ["a:1"]⟩] (fun _ => true) rfl rfl rfl rfl).2.2⟩

/-- C3: a member whose address contains a `':'` is classified ready if and
only if the single GET to the probe URL returns status exactly 200 with body
exactly `OK`; every other response (transport error included) classifies it
not-ready, and the probe returns a classification rather than aborting the
pass. -/
theorem C3_ready_iff_status200_body_OK
    (respond : String → Option (Nat × String)) (scheme : String)
    (portOffset : Int) (endpoint : String) (hcolon : ':' ∈ endpoint.data) :
    healthyEndpoint respond scheme portOffset endpoint
      = some (classifyResponse (respond (probeTarget scheme portOffset endpoint)))
    ∧ (healthyEndpoint respond scheme portOffset endpoint = some true
        ↔ respond (probeTarget scheme portOffset endpoint) = some (200, "OK"))
    ∧ ∀ resp, resp ≠ some (200, "OK") → classifyResponse resp = false := by
  obtain ⟨x, y, ys, hsplit⟩ := splitOnChar_two_of_mem hcolon
  have h1 : healthyEndpoint respond scheme portOffset endpoint
      = some (classifyResponse (respond (probeTarget scheme portOffset endpoint))) := by
    unfold healthyEndpoint
    rw [hsplit]
  refine ⟨h1, ?_, ?_⟩
  · rw [h1]
    simp only [Option.some_inj]
    exact classifyResponse_eq_true_iff _
  · intro resp hne
    cases hcl : classifyResponse resp with
    | false => rfl
    | true => exact absurd ((classifyResponse_eq_true_iff resp).mp hcl) hne

/-- Witness for C3: a network on which only the ready path of host `a` at
port 10902 answers `200 OK`; the member `a:10901` probed with port offset 1
is ready, and a transport error is classified not-ready. -/
theorem C3_witness :
    (':' ∈ ("a:10901" : String).data)
    ∧ healthyEndpoint
        (fun url => if url = "http://a:10902/-/ready" then some (200, "OK") else none)
        "http" 1 "a:10901"
      = some (classifyResponse
          ((fun url => if url = "http://a:10902/-/ready" then some (200, "OK") else none)
            (probeTarget "http" 1 "a:10901")))
    ∧ (healthyEndpoint
        (fun url => if url = "http://a:10902/-/ready" then some (200, "OK") else none)
        "http" 1 "a:10901" = some true
      ↔ (fun url => if url = "http://a:10902/-/ready" then some (200, "OK") else none)
          (probeTarget "http" 1 "a:10901") = some (200, "OK"))
    ∧ classifyResponse none = false :=
  ⟨by decide,
    (C3_ready_iff_status200_body_OK
      (fun url => if url = "http://a:10902/-/ready" then some (200, "OK") else none)
      "http" 1 "a:10901" (by decide)).1,
    (C3_ready_iff_status200_body_OK
      (fun url => if url = "http://a:10902/-/ready" then some (200, "OK") else none)
      "http" 1 "a:10901" (by decide)).2.1,
    (C3_ready_iff_status200_body_OK
      (fun url => if url = "http://a:10902/-/ready" then some (200, "OK") else none)
      "http" 1 "a:10901" (by decide)).2.2 none (by decide)⟩

/-- C4: when the owner lookup fails or the target path is unwritable, the
derived file is not updated — `saveHashringFile` and the whole
`checkHashringFile` pipeline leave the prior file state untouched — and only
that file's processing aborts: within a run, the result for any position
depends only on that position's inputs. -/
theorem C4_write_failure_leaves_derived_file_untouched {D : Type}
    [DecidableEq D] (env : CheckEnv D) (src : SourceRead)
    (ready : String → Bool) (generated : Option (List HashringConfig))
    (hfail : env.save.ownerOk = false ∨ env.save.writable = false) :
    (∀ prior content, (saveHashringFile env.save prior content).1 = prior)
    ∧ (checkHashringFile env src ready generated).1 = generated
    ∧ (∀ (files files' : List (FileInput D)) (j : Nat),
        files[j]? = files'[j]? → (runFiles files)[j]? = (runFiles files')[j]?) := by
  have hsave : ∀ prior content, (saveHashringFile env.save prior content).1 = prior := by
    intro prior content
    rcases hfail with h | h
    · simp [saveHashringFile, h]
    · cases ho : env.save.ownerOk <;> simp [saveHashringFile, ho, h]
  refine ⟨hsave, ?_, ?_⟩
  · cases src with
    | unreadable => rfl
    | malformed => rfl
    | ok hashrings =>
      cases generated with
      | none => exact hsave none _
      | some existing =>
        show (if !env.generatedReadable then _
          else _ : Option (List HashringConfig) × CheckResult).1 = _
        split
        · rfl
        · split
          · rfl
          · exact hsave (some existing) _
  · intro files files' j hj
    simp only [runFiles, List.getElem?_map, hj]

/-- Witness for C4: an unresolvable owner; saving leaves the existing derived
file intact, the pipeline leaves it intact, and the second file of a run is
unaffected when the first file's inputs change. -/
theorem C4_witness :
    ((⟨fun l => l.length, true, ⟨false, true, true⟩⟩ : CheckEnv Nat).save.ownerOk = false
        ∨ (⟨fun l => l.length, true, ⟨false, true, true⟩⟩ : CheckEnv Nat).save.writable = false)
    ∧ (saveHashringFile (⟨false, true, true⟩ : SaveEnv)
        (some [⟨"r", [], ["a:1"]⟩]) []).1 = some [⟨"r", [], ["a:1"]⟩]
    ∧ (checkHashringFile (⟨fun l => l.length, true, ⟨false, true, true⟩⟩ : CheckEnv Nat)
        (.ok [⟨"r", [], ["b:2"]⟩]) (fun _ => true)
        (some [⟨"r", [], ["a:1"]⟩])).1 = some [⟨"r", [], ["a:1"]⟩]
    ∧ (runFiles
        [⟨⟨fun l => l.length, true, ⟨false, true, true⟩⟩, .unreadable, fun _ => true, none⟩,
         ⟨⟨fun l => l.length, true, ⟨false, true, true⟩⟩, .malformed, fun _ => false, none⟩])[1]?
      = (runFiles
        [⟨⟨fun l => l.length, true, ⟨false, true, true⟩⟩, .malformed, fun _ => true, some []⟩,
         ⟨⟨fun l => l.length, true, ⟨false, true, true⟩⟩, .malformed, fun _ => false, none⟩])[1]? :=
  ⟨Or.inl rfl,
    (C4_write_failure_leaves_derived_file_untouched
      (⟨fun l => l.length, true, ⟨false, true, true⟩⟩ : CheckEnv Nat)
      (.ok [⟨"r", [], ["b:2"]⟩]) (fun _ => true) (some [⟨"r", [], ["a:1"]⟩])
      (Or.inl rfl)).1 (some [⟨"r", [], ["a:1"]⟩]) [],
    (C4_write_failure_leaves_derived_file_untouched
      (⟨fun l => l.length, true, ⟨false, true, true⟩⟩ : CheckEnv Nat)
      (.ok [⟨"r", [], ["b:2"]⟩]) (fun _ => true) (some [⟨"r", [], ["a:1"]⟩])
      (Or.inl rfl)).2.1,
    (C4_write_failure_leaves_derived_file_untouched
      (⟨fun l => l.length, true, ⟨false, true, true⟩⟩ : CheckEnv Nat)
      (.ok [⟨"r", [], ["b:2"]⟩]) (fun _ => true) (some [⟨"r", [], ["a:1"]⟩])
      (Or.inl rfl)).2.2
      [⟨⟨fun l => l.length, true, ⟨false, true, true⟩⟩, .unreadable, fun _ => true, none⟩,
       ⟨⟨fun l => l.length, true, ⟨false, true, true⟩⟩, .malformed, fun _ => false, none⟩]
      [⟨⟨fun l => l.length, true, ⟨false, true, true⟩⟩, .malformed, fun _ => true, some []⟩,
       ⟨⟨fun l => l.length, true, ⟨false, true, true⟩⟩, .malformed, fun _ => false, none⟩]
      1 rfl⟩

/-- C5: with the version flag clear, `main` aborts fatally at startup — an
outcome on which no reconciliation and no probe happens — if and only if the
configuration violates an invariant: the interval is not strictly greater
than the per-probe timeout, or the single-file and directory modes are both
present or both absent. -/
theorem C5_startup_fatal_iff_config_invariant_violated (f : Flags)
    (hv : f.version = false) :
    ((∃ m, mainModel f = .fatalConfig m)
      ↔ (f.interval ≤ f.endpointTimeout ∨ modesInvalid f = true))
    ∧ (∀ m, mainModel f = .fatalConfig m →
        mainModel f ≠ .runOnce ∧ mainModel f ≠ .scheduled) := by
  constructor
  · unfold mainModel
    rw [hv]
    by_cases hm : modesInvalid f
    · simp [hm]
    · by_cases hi : f.interval ≤ f.endpointTimeout
      · simp [hm, hi]
      · cases hs : f.schedule <;> simp [hm, hi, hs]
  · intro m hm
    rw [hm]
    refine ⟨fun h => ?_, fun h => ?_⟩ <;> cases h

/-- Witness for C5: a file-mode configuration with interval 5 not exceeding
timeout 10 is fatal at startup. -/
theorem C5_witness :
    ((⟨"x.json", "", 5, 10, false, false⟩ : Flags).version = false)
    ∧ ((∃ m, mainModel ⟨"x.json", "", 5, 10, false, false⟩ = .fatalConfig m)
        ↔ ((⟨"x.json", "", 5, 10, false, false⟩ : Flags).interval
              ≤ (⟨"x.json", "", 5, 10, false, false⟩ : Flags).endpointTimeout
            ∨ modesInvalid ⟨"x.json", "", 5, 10, false, false⟩ = true)) :=
  ⟨rfl, (C5_startup_fatal_iff_config_invariant_violated
    ⟨"x.json", "", 5, 10, false, false⟩ rfl).1⟩

/-- C6: reconciliation re-derives only the member list: the i-th reconciled
definition is the i-th input definition with only its endpoint list replaced,
so the hashring identifier and the tenant labels are unchanged and the order
of definitions matches the source file order. -/
theorem C6_reconcile_preserves_identity_tenants_and_order
    (ready : String → Bool) (hs : List HashringConfig) :
    ((reconcileAll ready hs).length = hs.length
     ∧ ∀ i : Nat, (reconcileAll ready hs)[i]? =
        (hs[i]?).map (fun h => { h with endpoints := sortStrings (h.endpoints.filter ready) }))
    ∧ ∀ (i : Nat) (h h' : HashringConfig),
        hs[i]? = some h → (reconcileAll ready hs)[i]? = some h' →
        h'.hashring = h.hashring ∧ h'.tenants = h.tenants := by
  constructor
  · refine ⟨List.length_map _ _, fun i => ?_⟩
    rw [reconcileAll, List.getElem?_map]
    rfl
  · intro i h h' hh hh'
    rw [reconcileAll, List.getElem?_map, hh] at hh'
    simp only [Option.map_some'] at hh'
    cases hh'
    exact ⟨rfl, rfl⟩

/-- Witness for C6: a named definition with tenants keeps its identifier and
tenants through reconciliation, with only the endpoints re-derived. -/
theorem C6_witness :
    (([⟨"ring1", ["t1"], ["b:2", "a:1"]⟩] : List HashringConfig)[0]?
        = some ⟨"ring1", ["t1"], ["b:2", "a:1"]⟩
      ∧ (reconcileAll (fun _ => true) [⟨"ring1", ["t1"], ["b:2", "a:1"]⟩])[0]?
        = some ⟨"ring1", ["t1"], ["a:1", "b:2"]⟩)
    ∧ ((⟨"ring1", ["t1"], ["a:1", "b:2"]⟩ : HashringConfig).hashring
        = (⟨"ring1", ["t1"], ["b:2", "a:1"]⟩ : HashringConfig).hashring
      ∧ (⟨"ring1", ["t1"], ["a:1", "b:2"]⟩ : HashringConfig).tenants
        = (⟨"ring1", ["t1"], ["b:2", "a:1"]⟩ : HashringConfig).tenants) :=
  ⟨⟨by decide, by decide⟩,
    (C6_reconcile_preserves_identity_tenants_and_order (fun _ => true)
      [⟨"ring1", ["t1"], ["b:2", "a:1"]⟩]).2 0
      ⟨"ring1", ["t1"], ["b:2", "a:1"]⟩ ⟨"ring1", ["t1"], ["a:1", "b:2"]⟩
      (by decide) (by decide)⟩

/-- C7: a definition in which every member fails its probe reconciles to an
empty member list, and that configuration is still serialized and written as
a valid derived file (outcome `saved`), not treated as an error. -/
theorem C7_all_members_failing_yields_empty_list_written {D : Type}
    [DecidableEq D] (env : CheckEnv D) (hs : List HashringConfig)
    (ready : String → Bool)
    (hall : ∀ h ∈ hs, ∀ e ∈ h.endpoints, ready e = false)
    (hok : env.save.ownerOk = true) (hw : env.save.writable = true)
    (hc : env.save.chownOk = true) :
    reconcileAll ready hs = hs.map (fun h => { h with endpoints := [] })
    ∧ checkHashringFile env (.ok hs) ready none
        = (some (hs.map fun h => { h with endpoints := [] }), .wrote .saved) := by
  have hrec : reconcileAll ready hs = hs.map (fun h => { h with endpoints := [] }) := by
    apply List.map_congr_left
    intro h hmem
    have hnil : h.endpoints.filter ready = [] := by
      apply List.filter_eq_nil_iff.mpr
      intro e he
      simp [hall h hmem e he]
    simp [reconcileDefinition, hnil, sortStrings, List.insertionSort]
  refine ⟨hrec, ?_⟩
  rw [show checkHashringFile env (.ok hs) ready none
      = ((saveHashringFile env.save none (reconcileAll ready hs)).1,
         .wrote (saveHashringFile env.save none (reconcileAll ready hs)).2) from rfl]
  simp [saveHashringFile, hok, hw, hc, hrec]

/-- Witness for C7: both members fail their probes; the derived file is
written with an empty endpoint list. -/
theorem C7_witness :
    ((∀ h ∈ ([⟨"r", ["t"], ["a:1", "b:2"]⟩] : List HashringConfig),
        ∀ e ∈ h.endpoints, (fun _ => false : String → Bool) e = false)
      ∧ (⟨fun _ => 0, true, ⟨true, true, true⟩⟩ : CheckEnv Nat).save.ownerOk = true
      ∧ (⟨fun _ => 0, true, ⟨true, true, true⟩⟩ : CheckEnv Nat).save.writable = true
      ∧ (⟨fun _ => 0, true, ⟨true, true, true⟩⟩ : CheckEnv Nat).save.chownOk = true)
    ∧ reconcileAll (fun _ => false) [⟨"r", ["t"], ["a:1", "b:2"]⟩]
        = [⟨"r", ["t"], []⟩]
    ∧ checkHashringFile (⟨fun _ => 0, true, ⟨true, true, true⟩⟩ : CheckEnv Nat)
        (.ok [⟨"r", ["t"], ["a:1", "b:2"]⟩]) (fun _ => false) none
        = (some [⟨"r", ["t"], []⟩], .wrote .saved) :=
  ⟨⟨by decide, rfl, rfl, rfl⟩,
    (C7_all_members_failing_yields_empty_list_written
      (⟨fun _ => 0, true, ⟨true, true, true⟩⟩ : CheckEnv Nat)
      [⟨"r", ["t"], ["a:1", "b:2"]⟩] (fun _ => false) (by decide) rfl rfl rfl).1,
    (C7_all_members_failing_yields_empty_list_written
      (⟨fun _ => 0, true, ⟨true, true, true⟩⟩ : CheckEnv Nat)
      [⟨"r", ["t"], ["a:1", "b:2"]⟩] (fun _ => false) (by decide) rfl rfl rfl).2⟩

/-- The state of the schedule branch after one tick starts a run. -/
def schedAfterTick : SchedState := ⟨true, 1, 0, false, false⟩

/-- The state after the termination signal has been forwarded while the run
is still in flight. -/
def schedPreExit : SchedState := ⟨true, 1, 0, true, false⟩

/-- The state after main returns: process exited with the run still marked in
flight and never completed. -/
def schedStuck : SchedState := ⟨true, 1, 0, true, true⟩

/-- No step is possible from `s`: for the schedule branch this means the
process is gone and nothing (in particular no in-flight run) ever finishes. -/
def schedTerminal (s : SchedState) : Prop := ∀ t, ¬ SchedStep s t

/-- C8 counterexample: the claim that a termination signal lets an in-flight
run finish is false.  From the initial state, a tick starts a run, the signal
arrives and is forwarded, and main exits immediately: the reached state has
the run still in flight (`runnerBusy`), zero completed runs, the process
exited, and no further step exists — the in-flight run is abandoned, never
completed. -/
theorem C8_counterexample_inflight_run_abandoned :
    SchedReaches schedInit schedStuck
    ∧ schedStuck.runnerBusy = true
    ∧ schedStuck.runsCompleted = 0
    ∧ schedStuck.exited = true
    ∧ schedTerminal schedStuck := by
  refine ⟨?_, rfl, rfl, rfl, ?_⟩
  · have s1 : SchedStep schedInit schedAfterTick := SchedStep.tick schedInit rfl rfl
    have s2 : SchedStep schedAfterTick schedPreExit := SchedStep.signal _ rfl rfl
    have s3 : SchedStep schedPreExit schedStuck := SchedStep.exit _ rfl rfl
    exact Relation.ReflTransGen.head s1 (Relation.ReflTransGen.head s2
      (Relation.ReflTransGen.head s3 Relation.ReflTransGen.refl))
  · intro t hstep
    cases hstep <;> simp_all [schedStuck]

/-- C8 amended: on receipt of the termination signal the schedule branch
stops scheduling new runs — once exited, no step at all (in particular no new
tick) is possible — but it does not wait for an in-flight run: the exit step
is enabled as soon as the signal is forwarded, even while the runner is
mid-run, so an in-flight run may be abandoned rather than run to
completion. -/
theorem C8_exit_immediate_and_no_runs_after_exit (s t u : SchedState)
    (hexit : s.exited = true) (husig : u.sigForwarded = true)
    (hune : u.exited = false) :
    (¬ SchedStep s t) ∧ SchedStep u { u with exited := true } := by
  constructor
  · intro h
    cases h <;> simp_all
  · exact SchedStep.exit u hune husig

/-- Witness for the amended C8: the exited state allows no step back to the
initial state, and exit is enabled from the pre-exit state even though the
runner is busy there. -/
theorem C8_witness :
    (schedStuck.exited = true
      ∧ schedPreExit.sigForwarded = true
      ∧ schedPreExit.exited = false)
    ∧ (¬ SchedStep schedStuck schedInit)
    ∧ SchedStep schedPreExit schedStuck :=
  ⟨⟨rfl, rfl, rfl⟩,
    (C8_exit_immediate_and_no_runs_after_exit schedStuck schedInit schedPreExit
      rfl rfl rfl).1,
    (C8_exit_immediate_and_no_runs_after_exit schedStuck schedInit schedPreExit
      rfl rfl rfl).2⟩

/-- C9: discovery returns only non-directory entries whose path ends in
`.json` but not in `_generated.json`; the derived file's name always ends in
`_generated.json`, and therefore a derived output file is never selected as a
reconciliation source on a later pass, whatever the directory contains. -/
theorem C9_generated_file_never_selected_as_source (entries : List WalkEntry) :
    (∀ p, p ∈ listHashringFiles entries →
        (∃ e ∈ entries, e.path = p ∧ e.isDir = false)
        ∧ hasSuffixGo p.data ".json".data = true
        ∧ hasSuffixGo p.data "_generated.json".data = false)
    ∧ (∀ file : String,
        hasSuffixGo (generatedFileName file).data "_generated.json".data = true
        ∧ generatedFileName file ∉ listHashringFiles entries) := by
  have hmem : ∀ p, p ∈ listHashringFiles entries →
      (∃ e ∈ entries, e.path = p ∧ e.isDir = false)
      ∧ hasSuffixGo p.data ".json".data = true
      ∧ hasSuffixGo p.data "_generated.json".data = false := by
    intro p hp
    simp only [listHashringFiles, List.mem_map, List.mem_filter] at hp
    obtain ⟨e, ⟨hent, hq⟩, hpath⟩ := hp
    simp only [Bool.and_eq_true, Bool.not_eq_true'] at hq
    exact ⟨⟨e, hent, hpath, hq.1.1⟩, hpath ▸ hq.2, hpath ▸ hq.1.2⟩
  have hgen : ∀ file : String,
      hasSuffixGo (generatedFileName file).data "_generated.json".data = true := by
    intro file
    show hasSuffixGo (prefixUpTo ".json".data file.data ++ "_generated.json".data)
      "_generated.json".data = true
    exact hasSuffixGo_append _ _
  refine ⟨hmem, fun file => ⟨hgen file, fun hin => ?_⟩⟩
  have hcontra := (hmem _ hin).2.2
  rw [hgen file] at hcontra
  cases hcontra

/-- Witness for C9: in a directory holding a source file, its derived file
and a subdirectory, only the source file is selected, and the name derived
from it is never selected. -/
theorem C9_witness :
    ("a.json" ∈ listHashringFiles
        [⟨"a.json", false⟩, ⟨"a_generated.json", false⟩, ⟨"sub", true⟩])
    ∧ ((∃ e ∈ ([⟨"a.json", false⟩, ⟨"a_generated.json", false⟩, ⟨"sub", true⟩] :
          List WalkEntry), e.path = "a.json" ∧ e.isDir = false)
        ∧ hasSuffixGo "a.json".data ".json".data = true
        ∧ hasSuffixGo "a.json".data "_generated.json".data = false)
    ∧ (hasSuffixGo (generatedFileName "a.json").data "_generated.json".data = true
        ∧ generatedFileName "a.json" ∉ listHashringFiles
            [⟨"a.json", false⟩, ⟨"a_generated.json", false⟩, ⟨"sub", true⟩]) :=
  ⟨by decide,
    (C9_generated_file_never_selected_as_source
      [⟨"a.json", false⟩, ⟨"a_generated.json", false⟩, ⟨"sub", true⟩]).1
      "a.json" (by decide),
    (C9_generated_file_never_selected_as_source
      [⟨"a.json", false⟩, ⟨"a_generated.json", false⟩, ⟨"sub", true⟩]).2 "a.json"⟩

/-- C10: the probe's address parsing is total only when the address contains
a `':'`: without one, `healthyEndpoint` hits the out-of-range index on the
split (modelled as `none`); with one it always classifies (`some`); and a
syntactically non-numeric port component is silently treated as port 0
because the `Atoi` error is discarded, so the probe goes to the bare offset
port. -/
theorem C10_address_parsing_partial_without_colon
    (respond : String → Option (Nat × String)) (scheme : String)
    (portOffset : Int) :
    (∀ endpoint : String, ':' ∉ endpoint.data →
        healthyEndpoint respond scheme portOffset endpoint = none)
    ∧ (∀ endpoint : String, ':' ∈ endpoint.data →
        ∃ b, healthyEndpoint respond scheme portOffset endpoint = some b)
    ∧ (∀ host portStr : String, ':' ∉ host.data → ':' ∉ portStr.data →
        atoiAccepts portStr.data = false →
        probeTarget scheme portOffset (host ++ ":" ++ portStr)
          = readyURL scheme host portOffset) := by
  refine ⟨fun endpoint h => ?_, fun endpoint h => ?_,
    fun host portStr hh hp ha => ?_⟩
  · unfold healthyEndpoint
    rw [splitOnChar_of_not_mem h]
  · obtain ⟨x, y, ys, hsplit⟩ := splitOnChar_two_of_mem h
    exact ⟨_, by unfold healthyEndpoint; rw [hsplit]⟩
  · have hdata : (host ++ ":" ++ portStr).data = host.data ++ ':' :: portStr.data := by
      simp [String.data_append]
    unfold probeTarget
    rw [hdata, splitOnChar_append _ hh, splitOnChar_of_not_mem hp]
    show readyURL scheme host (atoiGo portStr.data + portOffset) = _
    rw [atoiGo_eq_zero ha, zero_add]

/-- Witness for C10: `localhost` (no colon) makes the probe partial, `a:1` is
parsed, and the non-numeric port in `a:abc` is treated as port 0, probing the
offset port alone. -/
theorem C10_witness :
    ((':' ∉ ("localhost" : String).data)
      ∧ (':' ∈ ("a:1" : String).data)
      ∧ (':' ∉ ("a" : String).data)
      ∧ (':' ∉ ("abc" : String).data)
      ∧ atoiAccepts ("abc" : String).data = false)
    ∧ healthyEndpoint (fun _ => none) "http" 1 "localhost" = none
    ∧ (∃ b, healthyEndpoint (fun _ => none) "http" 1 "a:1" = some b)
    ∧ probeTarget "http" 1 ("a" ++ ":" ++ "abc") = readyURL "http" "a" 1 :=
  ⟨⟨by decide, by decide, by decide, by decide, by decide⟩,
    (C10_address_parsing_partial_without_colon (fun _ => none) "http" 1).1
      "localhost" (by decide),
    (C10_address_parsing_partial_without_colon (fun _ => none) "http" 1).2.1
      "a:1" (by decide),
    (C10_address_parsing_partial_without_colon (fun _ => none) "http" 1).2.2
      "a" "abc" (by decide) (by decide) (by decide)⟩

end ThanosReceiveController
